import Mathlib

/-!
Shallow embedding of the note CRUD service in `src/main.go` (package `main`,
sqlite3-backed, chi router).  The embedding has three layers:

* the data model: `Note` mirrors the Go struct `Note` (ID, Title, Content,
  CreatedAt); timestamps are abstracted to integers (`time.Time` values are
  only ever stored, compared and rendered, never computed with);
* the storage layer: `Store` models the `notes` table of the SQLite file
  (a list of rows in rowid order plus the AUTOINCREMENT counter);
  `insertSql`, `selectById`, `selectAll`, `updateSql`, `deleteSql` give the
  semantics of the five SQL statements the handlers issue;
* the handler layer: `createNote`, `getNote`, `getNotes`, `updateNote`,
  `deleteNote` are the five `http.HandlerFunc`s.  Request-body decoding and
  database I/O failures are nondeterministic inputs of the real handlers, so
  they are passed as explicit parameters (`Except String Note` for the result
  of `json.NewDecoder(r.Body).Decode(&note)`, `Option String` for a failed
  `db.Exec` / `db.Query`).  `json.Marshal` applied to a `Note` or `[]Note`
  value cannot fail, so it is modelled by the total functions `noteToJson` /
  `marshalNotes` into the JSON value type `Json`, and the handlers' dead
  marshal-error branches disappear.

The package-level variable `db` and `initialization` (src/main.go:22-39) are
modelled separately: `initialization` declares a fresh local `db` with `:=`
(line 29), so the package-level handle is never assigned.
-/

namespace NotesApi

/-- JSON values, the codomain of `encoding/json` marshalling. -/
inductive Json where
  | null : Json
  | str : String → Json
  | num : Int → Json
  | arr : List Json → Json
  | obj : List (String × Json) → Json

/-- The Go struct `Note` (src/main.go:15-20).  `CreatedAt : Int` abstracts
`time.Time` (an opaque timestamp, stored and rendered but never computed
with). -/
structure Note where
  ID : Int
  Title : String
  Content : String
  CreatedAt : Int
deriving DecidableEq, Repr

/-- `json.Marshal` on a `Note`: the four exported fields with their `json:`
tags; `created_at` is the RFC3339 rendering of the timestamp, abstracted to
an injective rendering of the integer timestamp. -/
def noteToJson (n : Note) : Json :=
  Json.obj [("id", Json.num n.ID), ("title", Json.str n.Title),
            ("content", Json.str n.Content),
            ("created_at", Json.str (toString n.CreatedAt))]

/-- The `notes` table: rows in rowid order, plus the AUTOINCREMENT counter
(the next rowid SQLite will assign; never reused, even after DELETE). -/
structure Store where
  rows : List Note
  nextId : Int
deriving DecidableEq, Repr

/-- The table right after `CREATE TABLE` (src/main.go:34-35): no rows,
AUTOINCREMENT starts at 1. -/
def emptyStore : Store := { rows := [], nextId := 1 }

/-- `INSERT INTO notes (title, content, created_at) VALUES (?, ?, ?)`
(src/main.go:60): the new row gets rowid `nextId`; returns the updated table
and `LastInsertId`. -/
def insertSql (s : Store) (t c : String) (ts : Int) : Store × Int :=
  ({ rows := s.rows ++ [{ ID := s.nextId, Title := t, Content := c, CreatedAt := ts }],
     nextId := s.nextId + 1 }, s.nextId)

/-- `SELECT id, title, content, created_at FROM notes WHERE id=?`
(src/main.go:93) read through `QueryRow(...).Scan`: the first row whose id
matches, or the no-rows signal `none` (`sql.ErrNoRows`). -/
def selectById (s : Store) (i : Int) : Option Note :=
  s.rows.find? (fun n => n.ID == i)

/-- `SELECT id, title, content, created_at FROM notes` (src/main.go:122):
every row in scan (rowid) order. -/
def selectAll (s : Store) : List Note :=
  s.rows

/-- The `SET title=?, content=?` clause: overwrite exactly those two columns
of a row. -/
def overwriteRow (t c : String) (n : Note) : Note :=
  { n with Title := t, Content := c }

/-- `UPDATE notes SET title=?, content=? WHERE id=?` (src/main.go:172):
overwrites title and content of every row whose id matches (zero rows
affected is not an error). -/
def updateSql (s : Store) (i : Int) (t c : String) : Store :=
  { s with rows := s.rows.map (fun n => if n.ID == i then overwriteRow t c n else n) }

/-- `DELETE FROM notes WHERE id=?` (src/main.go:190): removes every row whose
id matches (zero rows affected is not an error). -/
def deleteSql (s : Store) (i : Int) : Store :=
  { s with rows := s.rows.filter (fun n => !(n.ID == i)) }

/-- What a handler writes back: headers it set, status code, body. -/
inductive Body where
  | empty : Body
  | text : String → Body
  | json : Json → Body

/-- An HTTP response as the handlers produce it. -/
structure Response where
  status : Nat
  contentType : String
  body : Body

/-- `http.Error(w, msg, code)`: sets Content-Type to text/plain, writes the
status code and the message followed by a newline (`fmt.Fprintln`). -/
def httpError (msg : String) (code : Nat) : Response :=
  { status := code, contentType := "text/plain; charset=utf-8",
    body := Body.text (msg ++ "\n") }

/-- `http.NotFound(w, r)` = `http.Error(w, "404 page not found", 404)`. -/
def notFoundResponse : Response :=
  httpError "404 page not found" 404

/-- A successful JSON response: the handlers set Content-Type
application/json, then the status, then write the marshalled body. -/
def okJson (status : Nat) (j : Json) : Response :=
  { status := status, contentType := "application/json", body := Body.json j }

/-- `createNote` (src/main.go:50-80).  `decoded` is the outcome of
`json.NewDecoder(r.Body).Decode(&note)` (a full `Note`; any id or created_at
in the body is later overwritten), `now` is `time.Now()`, `insertErr` a
failure of `db.Exec` (INSERT), `lastIdErr` a failure of
`result.LastInsertId()` (which in Go returns 0 alongside its error).  The
code discards the `LastInsertId` error with `id, _ :=` (line 67), so on that
failure `note.ID` becomes 0 while the row keeps its real rowid. -/
def createNote (decoded : Except String Note) (now : Int)
    (insertErr : Option String) (lastIdErr : Option String)
    (s : Store) : Response × Store :=
  match decoded with
  | Except.error e => (httpError e 400, s)
  | Except.ok note =>
    match insertErr with
    | some e => (httpError e 500, s)
    | none =>
      let inserted := insertSql s note.Title note.Content now
      let id : Int :=
        match lastIdErr with
        | none => inserted.2
        | some _ => 0
      let note2 : Note :=
        { ID := id, Title := note.Title, Content := note.Content, CreatedAt := now }
      (okJson 201 (noteToJson note2), inserted.1)

/-- `getNote` (src/main.go:89-113).  `i` is the `{id}` path parameter (as the
integer SQLite compares the INTEGER column against), `queryErr` a database
failure other than the no-rows signal. -/
def getNote (i : Int) (queryErr : Option String) (s : Store) : Response :=
  match queryErr with
  | some e => httpError e 500
  | none =>
    match selectById s i with
    | none => notFoundResponse
    | some note => okJson 200 (noteToJson note)

/-- `var notes []Note; notes = append(notes, note)` (src/main.go:130-139):
the slice starts nil (`none`); appending makes it non-nil. -/
def appendNote (acc : Option (List Note)) (n : Note) : Option (List Note) :=
  some (acc.getD [] ++ [n])

/-- `json.Marshal` on the `[]Note` slice: a nil slice marshals to JSON
`null`, a non-nil slice to an array. -/
def marshalNotes : Option (List Note) → Json
  | none => Json.null
  | some l => Json.arr (l.map noteToJson)

/-- `getNotes` (src/main.go:121-152).  `queryErr` is a failure of `db.Query`
or of a row `Scan`. -/
def getNotes (queryErr : Option String) (s : Store) : Response :=
  match queryErr with
  | some e => httpError e 500
  | none =>
    okJson 200 (marshalNotes ((selectAll s).foldl appendNote none))

/-- `updateNote` (src/main.go:162-180).  `i` is the `{id}` path parameter,
`decoded` the body decode outcome, `execErr` a failure of `db.Exec`
(UPDATE).  On success the handler writes 200 and no body; the affected row
count is never inspected. -/
def updateNote (i : Int) (decoded : Except String Note)
    (execErr : Option String) (s : Store) : Response × Store :=
  match decoded with
  | Except.error e => (httpError e 400, s)
  | Except.ok note =>
    match execErr with
    | some e => (httpError e 500, s)
    | none =>
      ({ status := 200, contentType := "application/json", body := Body.empty },
       updateSql s i note.Title note.Content)

/-- `deleteNote` (src/main.go:187-198).  `i` is the `{id}` path parameter,
`execErr` a failure of `db.Exec` (DELETE).  On success 200, no body; the
affected row count is never inspected. -/
def deleteNote (i : Int) (execErr : Option String) (s : Store) : Response × Store :=
  match execErr with
  | some e => (httpError e 500, s)
  | none =>
    ({ status := 200, contentType := "application/json", body := Body.empty },
     deleteSql s i)

/-- A `*sql.DB` handle as far as this program observes it: which file it is
open on. -/
structure SqlDB where
  path : String
deriving DecidableEq, Repr

/-- The package-level `var db *sql.DB` (src/main.go:23) at process start:
nil. -/
def dbPackageVar : Option SqlDB := none

/-- `initialization` (src/main.go:28-39).  Line 29 reads
`db, err := sql.Open("sqlite3", "./notes.db")`: the `:=` declares a NEW
local variable `db` that shadows the package-level one, so the package-level
handle is never assigned.  The function is modelled as taking the current
package-level `db` and returning (package-level `db` afterwards, the local
handle the table was created on). -/
def initialization (globalDb : Option SqlDB) : Option SqlDB × SqlDB :=
  let localDb : SqlDB := { path := "./notes.db" }
  (globalDb, localDb)

/-- `nextId` is positive and strictly above every id in the table: holds for
`emptyStore` and is preserved by all five statements (AUTOINCREMENT). -/
def Store.WF (s : Store) : Prop :=
  1 ≤ s.nextId ∧ ∀ n ∈ s.rows, n.ID < s.nextId

/-- The stores the running service can produce from the fresh table by any
sequence of successful handler invocations (every reachable store satisfies
`Store.WF`, see `reachable_WF`). -/
inductive Reachable : Store → Prop where
  | init : Reachable emptyStore
  | create (note : Note) (now : Int) (s : Store) :
      Reachable s → Reachable (createNote (Except.ok note) now none none s).2
  | update (i : Int) (note : Note) (s : Store) :
      Reachable s → Reachable (updateNote i (Except.ok note) none s).2
  | delete (i : Int) (s : Store) :
      Reachable s → Reachable (deleteNote i none s).2

/-- A one-row table (the note of the spec's concrete scenario, already
persisted with id 1), used to instantiate the theorems on concrete data. -/
def sampleStore : Store :=
  { rows := [{ ID := 1, Title := "Test", Content := "Body", CreatedAt := 5 }], nextId := 2 }

/-- A decoded request body (`{"title":"New","content":"Updated"}`: the
undecoded fields stay at their zero values), used to instantiate the
theorems on concrete data. -/
def sampleBody : Note :=
  { ID := 0, Title := "New", Content := "Updated", CreatedAt := 0 }

/-! ### Helper lemmas about the storage layer -/

@[simp] theorem overwriteRow_ID (t c : String) (n : Note) :
    (overwriteRow t c n).ID = n.ID := rfl

theorem find?_map_overwrite (l : List Note) (i : Int) (t c : String) :
    (l.map (fun n => if n.ID == i then overwriteRow t c n else n)).find?
        (fun n => n.ID == i) =
      (l.find? (fun n => n.ID == i)).map (overwriteRow t c) := by
  induction l with
  | nil => rfl
  | cons a l ih =>
    by_cases h : a.ID = i
    · rw [List.map_cons, if_pos (by simpa using h)]
      rw [List.find?_cons_of_pos, List.find?_cons_of_pos]
      · rfl
      · simpa using h
      · simpa using h
    · rw [List.map_cons, if_neg (by simpa using h)]
      rw [List.find?_cons_of_neg, List.find?_cons_of_neg, ih]
      · simpa using h
      · simpa using h

theorem map_overwrite_idem (l : List Note) (i : Int) (t c : String) :
    ((l.map (fun n => if n.ID == i then overwriteRow t c n else n)).map
        (fun n => if n.ID == i then overwriteRow t c n else n)) =
      l.map (fun n => if n.ID == i then overwriteRow t c n else n) := by
  induction l with
  | nil => rfl
  | cons a l ih =>
    by_cases h : a.ID = i
    · rw [List.map_cons, if_pos (by simpa using h), List.map_cons,
        if_pos (by simpa [overwriteRow] using h), ih]
      rfl
    · rw [List.map_cons, if_neg (by simpa using h), List.map_cons,
        if_neg (by simpa using h), ih]

theorem filter_out_idem (l : List Note) (i : Int) :
    ((l.filter (fun n => !(n.ID == i))).filter (fun n => !(n.ID == i))) =
      l.filter (fun n => !(n.ID == i)) := by
  induction l with
  | nil => rfl
  | cons a l ih =>
    by_cases h : a.ID = i
    · rw [List.filter_cons_of_neg (by simpa using h), ih]
    · rw [List.filter_cons_of_pos (by simpa using h),
        List.filter_cons_of_pos (by simpa using h), ih]

theorem find?_append_of_left_none (l1 l2 : List Note) (p : Note → Bool)
    (h : ∀ n ∈ l1, p n = false) :
    (l1 ++ l2).find? p = l2.find? p := by
  induction l1 with
  | nil => rfl
  | cons a l ih =>
    have ha : p a = false := h a (List.mem_cons_self a l)
    have hl : ∀ n ∈ l, p n = false := fun n hn => h n (List.mem_cons_of_mem a hn)
    rw [List.cons_append, List.find?_cons_of_neg (l ++ l2) (by simp [ha]), ih hl]

theorem getNote_found (i : Int) (s : Store) (n : Note)
    (h : selectById s i = some n) :
    getNote i none s = okJson 200 (noteToJson n) := by
  unfold getNote
  rw [h]

theorem getNote_missing (i : Int) (s : Store)
    (h : selectById s i = none) :
    getNote i none s = notFoundResponse := by
  unfold getNote
  rw [h]

theorem selectById_updateSql (s : Store) (i : Int) (t c : String) :
    selectById (updateSql s i t c) i = (selectById s i).map (overwriteRow t c) := by
  show (s.rows.map (fun m => if m.ID == i then overwriteRow t c m else m)).find?
      (fun m => m.ID == i) = _
  rw [find?_map_overwrite]
  rfl

theorem WF_insertSql (s : Store) (t c : String) (ts : Int) (h : s.WF) :
    (insertSql s t c ts).1.WF := by
  obtain ⟨h1, h2⟩ := h
  refine ⟨show 1 ≤ s.nextId + 1 by omega, ?_⟩
  intro n hn
  show n.ID < s.nextId + 1
  rcases List.mem_append.mp hn with hmem | hmem
  · have := h2 n hmem
    omega
  · have hn' : n = { ID := s.nextId, Title := t, Content := c, CreatedAt := ts } := by
      simpa using hmem
    rw [hn']
    show s.nextId < s.nextId + 1
    omega

theorem WF_updateSql (s : Store) (i : Int) (t c : String) (h : s.WF) :
    (updateSql s i t c).WF := by
  obtain ⟨h1, h2⟩ := h
  refine ⟨h1, ?_⟩
  intro n hn
  obtain ⟨m, hm, rfl⟩ := List.mem_map.mp hn
  by_cases hid : m.ID = i
  · rw [if_pos (by simpa using hid)]
    simpa using h2 m hm
  · rw [if_neg (by simpa using hid)]
    exact h2 m hm

theorem WF_deleteSql (s : Store) (i : Int) (h : s.WF) :
    (deleteSql s i).WF := by
  obtain ⟨h1, h2⟩ := h
  exact ⟨h1, fun n hn => h2 n (List.mem_of_mem_filter hn)⟩

theorem reachable_WF (s : Store) (h : Reachable s) : s.WF := by
  induction h with
  | init => exact ⟨le_refl 1, fun n hn => absurd hn (List.not_mem_nil n)⟩
  | create note now s hs ih => exact WF_insertSql s note.Title note.Content now ih
  | update i note s hs ih => exact WF_updateSql s i note.Title note.Content ih
  | delete i s hs ih => exact WF_deleteSql s i ih

/-! ### The claims -/

/-- C1: the claim says that after `initialization()` returns, the
package-level `db` is an open non-nil handle.  In the code, line 29
(`db, err := sql.Open(...)`) declares a fresh local `db`, so the
package-level variable keeps its initial nil value. -/
theorem initialization_leaves_package_db_nil :
    (initialization dbPackageVar).1 = none := rfl

/-- C2 counterexample: on the empty store the get-all response body is not
the empty JSON array (the nil `[]Note` slice marshals to `null`). -/
theorem getNotes_empty_body_not_empty_array :
    (getNotes none emptyStore).body ≠ Body.json (Json.arr []) := by
  simp [getNotes, okJson, marshalNotes, selectAll, emptyStore]

/-- C2 amended: the get-all operation on the empty store returns a 200
success whose body is the JSON `null` value (Go marshals the nil slice as
`null`), not an error. -/
theorem getNotes_empty_returns_null_body :
    getNotes none emptyStore = okJson 200 Json.null := rfl

/-- C5: on a successful create with a decoded body and no database failure,
the response is 201 with the fully populated note (storage-assigned id
`s.nextId`, the given title and content, server-assigned `created_at`), and
the inserted row carries exactly those fields. -/
theorem createNote_success_populated (note : Note) (now : Int) (s : Store) :
    createNote (Except.ok note) now none none s =
      (okJson 201 (noteToJson
         { ID := s.nextId, Title := note.Title, Content := note.Content, CreatedAt := now }),
       { rows := s.rows ++
           [{ ID := s.nextId, Title := note.Title, Content := note.Content, CreatedAt := now }],
         nextId := s.nextId + 1 }) := rfl

/-- C7: update (with a decoded body) and delete return the same 200
empty-body success response for every store, in particular both when the id
matches a row and when it matches none: zero rows affected is not
distinguished from success. -/
theorem update_delete_zero_rows_same_success (s : Store) (i : Int) (note : Note) :
    (updateNote i (Except.ok note) none s).1 =
      { status := 200, contentType := "application/json", body := Body.empty } ∧
    (deleteNote i none s).1 =
      { status := 200, contentType := "application/json", body := Body.empty } :=
  ⟨rfl, rfl⟩

/-- C8: when body decoding fails, create and update answer 400 with the
decode error text (plus the newline `http.Error` appends) and leave the
store unchanged — no SQL statement runs. -/
theorem malformed_body_400_store_unchanged (e : String) (now : Int) (i : Int)
    (insertErr lastIdErr execErr : Option String) (s : Store) :
    createNote (Except.error e) now insertErr lastIdErr s = (httpError e 400, s) ∧
    updateNote i (Except.error e) execErr s = (httpError e 400, s) :=
  ⟨rfl, rfl⟩

/-- C9: at the storage level, applying the same update twice, or the same
delete twice, ends in the same store as applying it once. -/
theorem update_delete_idempotent (s : Store) (i : Int) (note : Note) :
    (updateNote i (Except.ok note) none (updateNote i (Except.ok note) none s).2).2 =
      (updateNote i (Except.ok note) none s).2 ∧
    (deleteNote i none (deleteNote i none s).2).2 = (deleteNote i none s).2 := by
  refine ⟨?_, ?_⟩
  · exact congrArg (fun l => Store.mk l s.nextId)
      (map_overwrite_idem s.rows i note.Title note.Content)
  · exact congrArg (fun l => Store.mk l s.nextId) (filter_out_idem s.rows i)

/-- C10: when `result.LastInsertId()` fails after a successful insert, the
discarded error (`id, _ :=`, src/main.go:67) leaves `note.ID` at Go's
zero-alongside-error value 0, and the handler still answers 201 with id 0 in
the body, while the inserted row carries the real rowid `s.nextId`. -/
theorem lastInsertId_error_discarded (e : String) (note : Note) (now : Int) (s : Store) :
    (createNote (Except.ok note) now none (some e) s).1 =
      okJson 201 (noteToJson
        { ID := 0, Title := note.Title, Content := note.Content, CreatedAt := now }) ∧
    (createNote (Except.ok note) now none (some e) s).2 =
      { rows := s.rows ++
          [{ ID := s.nextId, Title := note.Title, Content := note.Content, CreatedAt := now }],
        nextId := s.nextId + 1 } :=
  ⟨rfl, rfl⟩

/-- C3 counterexample: on an id matching no row the get-one status is 404,
but the response body is not empty: `http.NotFound` writes the plain-text
line `404 page not found`. -/
theorem getNote_absent_writes_body :
    (getNote 1 none emptyStore).status = 404 ∧
    (getNote 1 none emptyStore).body ≠ Body.empty := by
  refine ⟨rfl, ?_⟩
  intro h
  exact Body.noConfusion h

/-- C3 amended: for every id matching no persisted note (and no other query
failure), get-one answers 404 with the plain-text body
`404 page not found` followed by a newline, the body `http.NotFound`
writes. -/
theorem getNote_absent_404 (i : Int) (s : Store)
    (h : selectById s i = none) :
    getNote i none s = notFoundResponse :=
  getNote_missing i s h

/-- C3 amended, witnessed on the empty store at id 1. -/
theorem getNote_absent_404_witness :
    getNote 1 none emptyStore = notFoundResponse :=
  getNote_absent_404 1 emptyStore rfl

/-- C4: updating an existing row with a decoded {title, content} overwrites
exactly those two fields and preserves the row's id and created_at, as a
subsequent get-one on the same id observes. -/
theorem updateNote_overwrites_preserves (s : Store) (i : Int) (n body : Note)
    (h : selectById s i = some n) :
    selectById (updateNote i (Except.ok body) none s).2 i =
      some { n with Title := body.Title, Content := body.Content } ∧
    getNote i none (updateNote i (Except.ok body) none s).2 =
      okJson 200 (noteToJson { n with Title := body.Title, Content := body.Content }) := by
  have hsel : selectById (updateSql s i body.Title body.Content) i =
      some (overwriteRow body.Title body.Content n) := by
    rw [selectById_updateSql, h]
    rfl
  exact ⟨hsel, getNote_found i _ _ hsel⟩

/-- C4, witnessed on the one-row table: updating id 1 with
{"New", "Updated"} and fetching id 1 yields id 1 and created_at 5
unchanged. -/
theorem updateNote_overwrites_preserves_witness :
    selectById (updateNote 1 (Except.ok sampleBody) none sampleStore).2 1 =
      some { ID := 1, Title := "New", Content := "Updated", CreatedAt := 5 } ∧
    getNote 1 none (updateNote 1 (Except.ok sampleBody) none sampleStore).2 =
      okJson 200 (noteToJson { ID := 1, Title := "New", Content := "Updated", CreatedAt := 5 }) :=
  updateNote_overwrites_preserves sampleStore 1
    { ID := 1, Title := "Test", Content := "Body", CreatedAt := 5 } sampleBody rfl

/-- C6: on a well-formed store, create followed by get-one at the returned
id round-trips: the assigned id `s.nextId` is positive and distinct from
every existing row id, the create response is 201 with that id, and get-one
at it returns the created note with the given title and content. -/
theorem create_then_get_roundtrip (note : Note) (now : Int) (s : Store)
    (hwf : s.WF) :
    0 < s.nextId ∧
    (∀ m ∈ s.rows, m.ID ≠ s.nextId) ∧
    (createNote (Except.ok note) now none none s).1 =
      okJson 201 (noteToJson
        { ID := s.nextId, Title := note.Title, Content := note.Content, CreatedAt := now }) ∧
    getNote s.nextId none (createNote (Except.ok note) now none none s).2 =
      okJson 200 (noteToJson
        { ID := s.nextId, Title := note.Title, Content := note.Content, CreatedAt := now }) := by
  obtain ⟨h1, h2⟩ := hwf
  refine ⟨by omega, fun m hm => by have := h2 m hm; omega, rfl, ?_⟩
  apply getNote_found
  show (s.rows ++
      ([{ ID := s.nextId, Title := note.Title, Content := note.Content,
          CreatedAt := now }] : List Note)).find?
      (fun m => m.ID == s.nextId) = some _
  rw [find?_append_of_left_none]
  · exact List.find?_cons_of_pos _ (by simp)
  · intro m hm
    have hlt := h2 m hm
    have hne : m.ID ≠ s.nextId := by omega
    simpa using hne

/-- C6, witnessed on the empty store with the spec's concrete payload. -/
theorem create_then_get_roundtrip_witness :
    0 < emptyStore.nextId ∧
    (∀ m ∈ emptyStore.rows, m.ID ≠ emptyStore.nextId) ∧
    (createNote (Except.ok sampleBody) 7 none none emptyStore).1 =
      okJson 201 (noteToJson
        { ID := 1, Title := "New", Content := "Updated", CreatedAt := 7 }) ∧
    getNote 1 none (createNote (Except.ok sampleBody) 7 none none emptyStore).2 =
      okJson 200 (noteToJson
        { ID := 1, Title := "New", Content := "Updated", CreatedAt := 7 }) :=
  create_then_get_roundtrip sampleBody 7 emptyStore
    ⟨le_refl 1, fun n hn => absurd hn (List.not_mem_nil n)⟩

end NotesApi
